import Mathlib

/-!
Verification of the DefiBuddy repository's portfolio-percentage arithmetic
and endpoint logic, as a shallow embedding in Lean 4.

Source files embedded:
* `src/server/storage.ts` (routes section): the wallet-lookup endpoint
  (Ethplorer response adaptation, top-5 truncation, percentage
  normalization, lines 165-253) and the `/api/portfolio/chat` endpoint
  (schema validation, fallback replies, rescaling, lines 395-476);
* `src/shared/schema.ts`: the wallet address input pattern (line 138);
* `src/client/src/pages/home.tsx`: the `deployPortfolio` run
  (availability gate, per-asset loop, gas margin cutoff, lines 144-276).

Modelling conventions:
* JavaScript numbers are embedded as `ℚ` (the claims under study concern
  exact integer sums and roundings, which agree between `ℚ` and IEEE
  doubles at the magnitudes involved); `Math.round` is round-half-up,
  `⌊q + 1/2⌋`.
* JavaScript `BigInt` values are embedded as `ℤ` (balances, being
  non-negative, also appear as `ℕ`); `BigInt` division truncates toward
  zero, `Int.tdiv`.
* Fallible external calls (Ethplorer fetch, AI reply, gas estimation,
  swap submission) are inputs to the embedded functions: an `Option` or
  environment argument supplies what the external world returned.
-/

/-! ## JavaScript numeric primitives -/

/-- JavaScript `Math.round`: round half toward positive infinity. -/
def jsRound (q : ℚ) : ℤ := ⌊q + 1/2⌋

/-- The `Math.round(x * 100) / 100` two-decimal rounding used for USD
balances (storage.ts lines 201 and 214). -/
def round2 (q : ℚ) : ℚ := (jsRound (q * 100) : ℚ) / 100

/-! ## Wallet-lookup percentage normalization (storage.ts lines 227-235)

```
const totalUsd = top5Raw.reduce((sum, t) => sum + t.balanceUsd, 0);
const topTokens = top5Raw.map((t, i, arr) => {
  let pct = totalUsd > 0 ? Math.round((t.balanceUsd / totalUsd) * 100)
                         : Math.round(100 / arr.length);
  return { ...t, percentage: pct };
});
const pctSum = topTokens.reduce((s, t) => s + t.percentage, 0);
if (pctSum !== 100 && topTokens.length > 0) {
  topTokens[0].percentage += 100 - pctSum;
}
```
The percentage list depends on the weights alone, so it is factored over
the `balanceUsd` projection: `rawPercents` is the `map`, `fixFirst` the
first-item correction, `walletNormalize` their composite. -/

/-- Per-item rounded share: `totalUsd > 0 ? round(w/total*100) : round(100/n)`. -/
def rawPercents (ws : List ℚ) : List ℤ :=
  ws.map fun w =>
    if 0 < ws.sum then jsRound (w / ws.sum * 100) else jsRound (100 / (ws.length : ℚ))

/-- The correction `if (pctSum !== 100 && length > 0) first += 100 - pctSum`. -/
def fixFirst (pcts : List ℤ) : List ℤ :=
  if pcts.sum = 100 then pcts
  else
    match pcts with
    | [] => []
    | p :: rest => (p + (100 - (p :: rest).sum)) :: rest

/-- The wallet-lookup percentage computation applied to a weight list. -/
def walletNormalize (ws : List ℚ) : List ℤ := fixFirst (rawPercents ws)

/-- Modelled from the spec (section 4.1 and section 8): the distribution the
spec prescribes for an all-zero weight list of length n, namely
`floor(100/n)` per item with the remainder `100 mod n` handed out one unit
at a time starting from the first item.  Stated only to be compared with
`walletNormalize`; the code under `src/` is the authority. -/
def zeroSpecList (n : ℕ) : List ℤ :=
  List.ofFn fun i : Fin n => ((100 / n : ℕ) : ℤ) + if (i : ℕ) < 100 % n then 1 else 0

/-! ## Wallet-lookup adapter (storage.ts lines 165-253) -/

/-- A raw holdings entry as pushed onto `rawTokens` (storage.ts lines
192-222).  The display string `balance` (a `toFixed` formatting of
`balanceNum`) carries no information beyond `balanceNum` and is omitted. -/
structure RawToken where
  name : String
  symbol : String
  balanceNum : ℚ
  balanceUsd : ℚ
deriving DecidableEq

/-- The `price` object of the Ethplorer `ETH` field (`{rate?: number}`). -/
structure EthPriceInfo where
  rate : Option ℚ
deriving DecidableEq

/-- The Ethplorer `ETH` field: `{balance?: number, price?: {rate?: number}}`. -/
structure EthInfo where
  balance : Option ℚ
  price : Option EthPriceInfo
deriving DecidableEq

/-- The Ethplorer `tokenInfo` object.  `decimals` arrives as a string or
number and is read through `Number(...) || 0`; it is embedded as the numeric
value.  `price` is `{rate?: number} | false`: `priceRate = some r` embeds an
object whose `rate` field is `r`, `none` embeds `false`, `null` or an absent
field (all of which the code collapses to rate 0). -/
structure TokenInfo where
  name : Option String
  symbol : Option String
  decimals : Option ℕ
  type : Option String
  priceRate : Option (Option ℚ)
deriving DecidableEq

/-- One entry of the Ethplorer `tokens` array. -/
structure TokenEntry where
  tokenInfo : Option TokenInfo
  balance : Option ℚ
deriving DecidableEq

/-- The parsed Ethplorer `getAddressInfo` response (storage.ts lines
178-185).  `error = some m` embeds an `error` object whose optional
`message` is `m`. -/
structure EthplorerData where
  ETH : Option EthInfo
  tokens : Option (List TokenEntry)
  error : Option (Option String)
deriving DecidableEq

/-- JavaScript string truthiness of an optional string field:
absent, `undefined` and `""` are falsy. -/
def strTruthy : Option String → Bool
  | some s => s ≠ ""
  | none => false

/-- The ETH entry (storage.ts lines 194-203): balance and price default to 0
through `|| 0` and `?.rate || 0`. -/
def ethRawToken (e : EthInfo) : RawToken :=
  let ethBalance := e.balance.getD 0
  let ethPrice := match e.price with
    | some p => p.rate.getD 0
    | none => 0
  ⟨"Ethereum", "ETH", ethBalance, round2 (ethBalance * ethPrice)⟩

/-- One ERC-20 entry (storage.ts lines 206-222): entries without a truthy
name and symbol are skipped, as are entries whose `type` is truthy and not
"ERC-20"; the balance is scaled by `10^decimals` and priced through the
collapsed `price.rate`. -/
def erc20RawToken (t : TokenEntry) : Option RawToken :=
  match t.tokenInfo with
  | none => none
  | some info =>
    if strTruthy info.name && strTruthy info.symbol then
      if (match info.type with
          | some ty => ty ≠ "" && ty ≠ "ERC-20"
          | none => false : Bool) then none
      else
        let decimals := info.decimals.getD 0
        let rawBalance := t.balance.getD 0
        let adjustedBalance := rawBalance / (10 : ℚ) ^ decimals
        let price := match info.priceRate with
          | some r => r.getD 0
          | none => 0
        some ⟨info.name.getD "", info.symbol.getD "", adjustedBalance,
          round2 (adjustedBalance * price)⟩
    else none

/-- The `rawTokens` list as built by the endpoint: the ETH entry first (when the
`ETH` field is present), then the filtered ERC-20 entries in order. -/
def rawTokensOf (d : EthplorerData) : List RawToken :=
  (match d.ETH with
    | some e => [ethRawToken e]
    | none => []) ++
  (match d.tokens with
    | some ts => ts.filterMap erc20RawToken
    | none => [])

/-- The sort order of `rawTokens.sort((a, b) => b.balanceUsd - a.balanceUsd)`:
descending USD balance.  JavaScript `Array.prototype.sort` is stable, as is
insertion sort, so the two agree on ties. -/
def usdGE (a b : RawToken) : Prop := b.balanceUsd ≤ a.balanceUsd

instance usdGE.decRel : DecidableRel usdGE :=
  fun a b => inferInstanceAs (Decidable (b.balanceUsd ≤ a.balanceUsd))

instance usdGE.total : IsTotal RawToken usdGE :=
  ⟨fun a b => le_total b.balanceUsd a.balanceUsd⟩

instance usdGE.trans : IsTrans RawToken usdGE :=
  ⟨fun _ _ _ h1 h2 => le_trans h2 h1⟩

/-- The sorted and truncated list, `rawTokens.sort(...)` then `.slice(0, 5)`
(storage.ts lines 225-226). -/
def top5Raw (d : EthplorerData) : List RawToken :=
  (List.insertionSort usdGE (rawTokensOf d)).take 5

/-- A response token: a raw entry with its normalized percentage. -/
structure OutToken where
  name : String
  symbol : String
  balanceNum : ℚ
  balanceUsd : ℚ
  percentage : ℤ
deriving DecidableEq

/-- Attach the normalized percentages positionally (the `map` of lines
228-231 plus the first-item correction of lines 232-235, factored through
`walletNormalize` of the `balanceUsd` projection). -/
def attachPercentages (ts : List RawToken) : List OutToken :=
  List.zipWith (fun t p => ⟨t.name, t.symbol, t.balanceNum, t.balanceUsd, p⟩)
    ts (walletNormalize (ts.map (·.balanceUsd)))

/-- The `topTokens` list the endpoint stores and returns. -/
def walletTokensOut (d : EthplorerData) : List OutToken :=
  attachPercentages (top5Raw d)

/-! ## Wallet-lookup endpoint dispatch (schema.ts line 138, storage.ts
lines 165-253) -/

/-- A hexadecimal digit of the address pattern class `[a-fA-F0-9]`. -/
def isEthHexDigit (c : Char) : Bool :=
  c.isDigit || ('a' ≤ c && c ≤ 'f') || ('A' ≤ c && c ≤ 'F')

/-- The Zod input pattern `^0x[a-fA-F0-9]{40}$` (schema.ts line 138):
exactly "0x" followed by forty hex digits. -/
def matchesEthAddress (s : String) : Bool :=
  match s.data with
  | '0' :: 'x' :: rest => rest.length == 40 && rest.all isEthHexDigit
  | _ => false

/-- The wallet-lookup endpoint's possible responses. -/
inductive WalletLookupResult where
  | validationError
  | upstreamError
  | addressError (msg : String)
  | ok (address : String) (tokens : List OutToken)
deriving DecidableEq

/-- What the external world returns to the endpoint: whether the Ethplorer
fetch came back `ok`, and the parsed body when it did. -/
structure WalletEnv where
  fetchOk : Bool
  data : EthplorerData

/-- JavaScript `x || d` for an optional string: absent and `""` give `d`. -/
def jsOrStr (x : Option String) (d : String) : String :=
  match x with
  | some s => if s = "" then d else s
  | none => d

/-- The wallet-lookup handler: Zod address validation (a `ZodError` is
caught as HTTP 400 with no record stored, lines 248-250), the fetch-failure
502 (lines 173-176), the Ethplorer `error` 400 (lines 187-190), and the
success path, which stores exactly one history record (lines 237-240).
The second component lists the `wallet_searches` records created. -/
def walletLookup (address : String) (env : WalletEnv) :
    WalletLookupResult × List (String × List OutToken) :=
  if !matchesEthAddress address then (.validationError, [])
  else if !env.fetchOk then (.upstreamError, [])
  else
    match env.data.error with
    | some m => (.addressError (jsOrStr m "Invalid address"), [])
    | none =>
      let toks := walletTokensOut env.data
      (.ok address toks, [(address, toks)])

/-! ## Chat-edit endpoint (storage.ts lines 395-476) -/

/-- A JSON value, as `JSON.parse` can produce it. -/
inductive JSVal where
  | null
  | bool (b : Bool)
  | num (q : ℚ)
  | str (s : String)
  | arr (elems : List JSVal)
  | obj (fields : List (String × JSVal))

/-- JavaScript truthiness of a JSON value. -/
def jsTruthy : JSVal → Bool
  | .null => false
  | .bool b => b
  | .num q => q ≠ 0
  | .str s => s ≠ ""
  | .arr _ => true
  | .obj _ => true

/-- Field lookup on a parsed JSON object's fields. -/
def jsLookup (fields : List (String × JSVal)) (k : String) : Option JSVal :=
  (fields.find? fun f => f.1 = k).map (·.2)

/-- JavaScript property access `v.k` for non-null values: `undefined`
(here `none`) on primitives and arrays.  Access on `null` throws and is
handled separately in `chatHandle`. -/
def jsField : JSVal → String → Option JSVal
  | .obj fields, k => jsLookup fields k
  | _, _ => none

/-- A portfolio item of the chat schema: `{name, symbol?, percentage}`. -/
structure ChatItem where
  name : String
  symbol : Option String
  percentage : ℚ
deriving DecidableEq

/-- Decode one portfolio item against the Zod item schema
(`name: z.string(), symbol: z.string().optional(), percentage: z.number()`,
storage.ts lines 449-453): extra fields are stripped, a present `symbol`
must be a string. -/
def decodeChatItem : JSVal → Option ChatItem
  | .obj fields =>
    match jsLookup fields "name", jsLookup fields "symbol",
      jsLookup fields "percentage" with
    | some (.str name), symField, some (.num pct) =>
      match symField with
      | none => some ⟨name, none, pct⟩
      | some (.str s) => some ⟨name, some s, pct⟩
      | some _ => none
    | _, _, _ => none
  | _ => none

/-- Decode every element of the portfolio array; any failure fails the list. -/
def decodeChatItems : List JSVal → Option (List ChatItem)
  | [] => some []
  | v :: rest =>
    match decodeChatItem v, decodeChatItems rest with
    | some i, some is => some (i :: is)
    | _, _ => none

/-- Decode a parsed AI reply against `responseSchema`
(`{reply: z.string(), portfolio: z.array(...)}`, storage.ts lines 447-454):
`some` is a successful `safeParse`. -/
def decodeChatReply (v : JSVal) : Option (String × List ChatItem) :=
  match v with
  | .obj fields =>
    match jsLookup fields "reply", jsLookup fields "portfolio" with
    | some (.str r), some (.arr items) =>
      match decodeChatItems items with
      | some is => some (r, is)
      | none => none
    | _, _ => none
  | _ => none

/-- The rescale `map` (storage.ts line 465): each percentage becomes
`Math.round(p / total * 100)`. -/
def chatScaled (items : List ChatItem) (total : ℚ) : List ChatItem :=
  items.map fun i =>
    { i with percentage := ((jsRound (i.percentage / total * 100) : ℤ) : ℚ) }

/-- The remainder correction (storage.ts lines 466-467):
`diff = 100 - sum; if (diff !== 0) items[0].percentage += diff`. -/
def chatFixFirst (scaled : List ChatItem) : List ChatItem :=
  if 100 - (scaled.map (·.percentage)).sum = 0 then scaled
  else
    match scaled with
    | [] => scaled
    | x :: rest =>
      { x with percentage := x.percentage + (100 - ((x :: rest).map (·.percentage)).sum) }
        :: rest

/-- The chat-edit rescaling block (storage.ts lines 462-469): only a
non-empty portfolio whose percentage total is positive and differs from 100
by more than 0.5 is rescaled; anything else passes through unchanged. -/
def chatRescale (items : List ChatItem) : List ChatItem :=
  if items.length > 0 then
    if 0 < (items.map (·.percentage)).sum ∧
        1/2 < |(items.map (·.percentage)).sum - 100| then
      chatFixFirst (chatScaled items ((items.map (·.percentage)).sum))
    else items
  else items

/-- The chat endpoint's response: HTTP 200 with a reply value (a string on
every path except the raw `parsed.reply` passthrough) and a portfolio, or
the HTTP 500 of the outer catch. -/
inductive ChatResponse where
  | ok (reply : JSVal) (portfolio : List ChatItem)
  | serverError

/-- Fallback reply when `JSON.parse` throws (storage.ts line 444). -/
def chatParseFailReply : String := "I had trouble processing that. Could you try rephrasing?"

/-- Fallback reply when schema validation fails (storage.ts line 458). -/
def chatValidateFailReply : String := "I had trouble updating the portfolio. Please try again."

/-- The chat-edit handler after the AI call, as a function of the
`JSON.parse` outcome (`none` = the parse threw) and the request's portfolio
(storage.ts lines 440-471).  On parse failure the original portfolio is
returned with a fixed reply; on schema failure `parsed.reply || fallback`
is returned with the original portfolio, except that property access on a
parsed `null` throws a `TypeError`, which the outer catch turns into
HTTP 500; on schema success the (conditionally rescaled) AI portfolio is
returned. -/
def chatHandle (parsed : Option JSVal) (portfolio : List ChatItem) : ChatResponse :=
  match parsed with
  | none => .ok (.str chatParseFailReply) portfolio
  | some v =>
    match decodeChatReply v with
    | some (reply, items) => .ok (.str reply) (chatRescale items)
    | none =>
      match v with
      | .null => .serverError
      | _ =>
        match jsField v "reply" with
        | some rv =>
          if jsTruthy rv then .ok rv portfolio
          else .ok (.str chatValidateFailReply) portfolio
        | none => .ok (.str chatValidateFailReply) portfolio

/-! ## Portfolio deployment (home.tsx lines 144-276) -/

/-- A client-side portfolio item (home.tsx line 15). -/
structure PortfolioItem where
  name : String
  symbol : Option String
  percentage : ℤ
deriving DecidableEq

/-- One entry of the `/api/uniswap/check-tokens` response (home.tsx line 18). -/
structure TokenCheck where
  symbol : String
  available : Bool
  address : Option String
  decimals : Option ℕ
  tokenName : Option String
deriving DecidableEq

/-- ASCII lowering of one character (the deployment symbols are ASCII
tickers, so `toLowerCase` is embedded ASCII-only). -/
def lowerChar (c : Char) : Char :=
  if 'A' ≤ c ∧ c ≤ 'Z' then Char.ofNat (c.toNat + 32) else c

/-- JavaScript `s.toLowerCase()` on ASCII strings. -/
def lowerStr (s : String) : String := ⟨s.data.map lowerChar⟩

/-- JavaScript `i.symbol || i.name`: the name stands in when the symbol is absent or
empty. -/
def itemKey (i : PortfolioItem) : String :=
  match i.symbol with
  | some s => if s = "" then i.name else s
  | none => i.name

/-- The lookup `portfolio.items.find(i => (i.symbol || i.name).toLowerCase() ===
t.symbol.toLowerCase())` (home.tsx lines 202-204). -/
def findItem (items : List PortfolioItem) (sym : String) : Option PortfolioItem :=
  items.find? fun i => lowerStr (itemKey i) = lowerStr sym

/-- Truthiness of the optional `address` field (`t.available && t.address`,
home.tsx line 194): `null` and `""` are falsy. -/
def hasAddress (c : TokenCheck) : Bool :=
  match c.address with
  | some a => a ≠ ""
  | none => false

/-- The filter `checks.filter(t => t.available && t.address)` (home.tsx line 194). -/
def availableChecks (checks : List TokenCheck) : List TokenCheck :=
  checks.filter fun c => c.available && hasAddress c

/-- The `totalPercentage` sum (home.tsx lines 196-199): the sum over available
tokens of the matching item's percentage, defaulting to 0. -/
def totalPercentageOf (items : List PortfolioItem) (checks : List TokenCheck) : ℤ :=
  ((availableChecks checks).map fun c =>
    ((findItem items c.symbol).map (·.percentage)).getD 0).sum

/-- The divisor `BigInt(totalPercentage > 0 ? totalPercentage : 100)` used
by both spend-amount computations (home.tsx lines 209 and 245). -/
def divisorOf (total : ℤ) : ℤ := if 0 < total then total else 100

/-- The spend amount `preliminaryAmount = (balance * BigInt(pct)) / BigInt(total > 0 ? total
: 100)` (home.tsx line 209); `BigInt` division truncates toward zero. -/
def preliminaryAmount (balance pct total : ℤ) : ℤ :=
  Int.tdiv (balance * pct) (divisorOf total)

/-- The spend amount `amountIn = (usableBalance * BigInt(pct)) / BigInt(total > 0 ? total :
100)` (home.tsx line 245). -/
def swapAmountIn (usableBalance pct total : ℤ) : ℤ :=
  Int.tdiv (usableBalance * pct) (divisorOf total)

/-- The gas price `feeData.gasPrice || parseEther("0.00000005")`: a `0n` gas price is
falsy and falls back to the constant. -/
def bigOr (x : Option ℕ) (d : ℕ) : ℕ :=
  match x with
  | some g => if g = 0 then d else g
  | none => d

/-- The fallback gas price `parseEther("0.00000005")` in wei. -/
def gasPriceFallback : ℕ := 50000000000

/-- The margin-adjusted cost `gasCost = gasEstimate * gasPrice * 120n / 100n` (home.tsx line 236):
the estimated cost with the 20% safety margin, floored by `BigInt`
division. -/
def marginGasCost (gasEstimate gasPrice : ℕ) : ℕ :=
  gasEstimate * gasPrice * 120 / 100

/-- What the chain returns during one loop iteration: the freshly fetched
balance, the gas estimate (`none` = `estimateGas` threw), the fee data's
gas price, and whether the submitted swap confirmed. -/
structure StepEnv where
  balance : ℕ
  gasEstimate : Option ℕ
  gasPrice : Option ℕ
  swapOk : Bool

/-- The per-iteration outcome of the deployment loop. -/
inductive StepOutcome where
  | noItem
  | skippedZeroPreliminary
  | skippedGasEstimate
  | haltedInsufficientGas (gasCost : ℕ)
  | skippedZeroAmount
  | swapped (amountIn : ℤ)
  | swapFailed (amountIn : ℤ)
deriving DecidableEq

/-- The `for (const token of availableTokens)` loop (home.tsx lines
201-263), iteration `idx` drawing that iteration's chain responses from
`env idx`.  `continue` appends an outcome and recurses; the gas cutoff
`if (gasCost >= balance) break` ends the whole list. -/
def runLoop (items : List PortfolioItem) (total : ℤ) (env : ℕ → StepEnv) :
    List TokenCheck → ℕ → List StepOutcome
  | [], _ => []
  | t :: rest, idx =>
    match findItem items t.symbol with
    | none => .noItem :: runLoop items total env rest (idx + 1)
    | some item =>
      if preliminaryAmount ((env idx).balance : ℤ) item.percentage total = 0 then
        .skippedZeroPreliminary :: runLoop items total env rest (idx + 1)
      else
        match (env idx).gasEstimate with
        | none => .skippedGasEstimate :: runLoop items total env rest (idx + 1)
        | some g =>
          if (env idx).balance ≤ marginGasCost g (bigOr (env idx).gasPrice gasPriceFallback)
          then
            [.haltedInsufficientGas (marginGasCost g (bigOr (env idx).gasPrice gasPriceFallback))]
          else
            if swapAmountIn
                (((env idx).balance -
                  marginGasCost g (bigOr (env idx).gasPrice gasPriceFallback) : ℕ) : ℤ)
                item.percentage total = 0 then
              .skippedZeroAmount :: runLoop items total env rest (idx + 1)
            else
              (if (env idx).swapOk then
                .swapped (swapAmountIn
                  (((env idx).balance -
                    marginGasCost g (bigOr (env idx).gasPrice gasPriceFallback) : ℕ) : ℤ)
                  item.percentage total)
              else
                .swapFailed (swapAmountIn
                  (((env idx).balance -
                    marginGasCost g (bigOr (env idx).gasPrice gasPriceFallback) : ℕ) : ℤ)
                  item.percentage total)) ::
                runLoop items total env rest (idx + 1)

/-- The result of a whole deployment run. -/
inductive DeployResult where
  | unavailable (symbols : List String)
  | wrongNetwork
  | zeroBalance
  | completed (outcomes : List StepOutcome)
deriving DecidableEq

/-- The `deployPortfolio` run (home.tsx lines 144-276): the availability
gate (lines 165-170, before any chain interaction), the network check
(lines 177-182), the zero-balance check (lines 187-191), then the per-asset
loop.  `chainOk` embeds `network.chainId === SEPOLIA_CHAIN_ID`;
`initialBalance` the balance fetched before the loop.  The `unavailable`
status carries the missing symbols the status message lists. -/
def deployPortfolio (items : List PortfolioItem) (checks : List TokenCheck)
    (chainOk : Bool) (initialBalance : ℕ) (env : ℕ → StepEnv) : DeployResult :=
  if (checks.filter fun c => !c.available).length > 0 then
    .unavailable ((checks.filter fun c => !c.available).map (·.symbol))
  else if !chainOk then .wrongNetwork
  else if initialBalance = 0 then .zeroBalance
  else .completed (runLoop items (totalPercentageOf items checks) env (availableChecks checks) 0)

/-- An outcome in which `router.exactInputSingle` was called. -/
def isSwapSubmission : StepOutcome → Bool
  | .swapped _ => true
  | .swapFailed _ => true
  | _ => false

/-- How many swap transactions a run submitted. -/
def submittedSwapCount : DeployResult → ℕ
  | .completed outcomes => outcomes.countP isSwapSubmission
  | _ => 0

/-! ## Concrete fixtures used by witnesses and counterexamples -/

/-- A schema-valid AI reply whose portfolio is a single item at 0%. -/
def chatZeroReplyVal : JSVal :=
  JSVal.obj [("reply", JSVal.str "ok"),
    ("portfolio", JSVal.arr [JSVal.obj
      [("name", JSVal.str "USDC"), ("percentage", JSVal.num 0)]])]

/-- A schema-valid AI reply whose portfolio percentages total 150. -/
def chatGoodReplyVal : JSVal :=
  JSVal.obj [("reply", JSVal.str "rebalanced"),
    ("portfolio", JSVal.arr [
      JSVal.obj [("name", JSVal.str "ARB"), ("percentage", JSVal.num 60)],
      JSVal.obj [("name", JSVal.str "OP"), ("percentage", JSVal.num 90)]])]

/-- An Ethplorer response carrying only an ETH balance. -/
def ethOnlyData : EthplorerData :=
  ⟨some ⟨some 2, some ⟨some 1000⟩⟩, none, none⟩

/-- A wallet-lookup environment with a successful, empty-wallet fetch. -/
def emptyWalletEnv : WalletEnv := ⟨true, ⟨none, none, none⟩⟩

/-- A one-item portfolio for deployment runs. -/
def depItems : List PortfolioItem := [⟨"Uniswap", some "UNI", 100⟩]

/-- A check list in which every token is available. -/
def depChecksOk : List TokenCheck := [⟨"UNI", true, some "0xabc", some 18, some "Uniswap"⟩]

/-- A check list in which one of two tokens is unavailable. -/
def depChecksBad : List TokenCheck :=
  [⟨"UNI", true, some "0xabc", some 18, some "Uniswap"⟩,
   ⟨"FOO", false, none, none, none⟩]

/-- A chain environment whose gas cost exceeds the balance at every step. -/
def depEnvHalt : ℕ → StepEnv := fun _ => ⟨10, some 100, some 1, true⟩

/-! ## Theorems: normalization (claims C1, C2, C3) -/

theorem jsRound_intCast (z : ℤ) : jsRound (z : ℚ) = z := by
  rw [jsRound, add_comm, Int.floor_add_int]
  norm_num

theorem sum_intCast (l : List ℤ) :
    (l.map (fun (p : ℤ) => (p : ℚ))).sum = ((l.sum : ℤ) : ℚ) := by
  induction l with
  | nil => simp
  | cons a rest ih =>
    rw [List.map_cons, List.sum_cons, List.sum_cons, ih]
    push_cast
    ring

theorem fixFirst_length (pcts : List ℤ) : (fixFirst pcts).length = pcts.length := by
  unfold fixFirst
  split
  · rfl
  · cases pcts <;> rfl

theorem fixFirst_sum (pcts : List ℤ) (h : pcts ≠ []) : (fixFirst pcts).sum = 100 := by
  unfold fixFirst
  split
  · assumption
  · cases pcts with
    | nil => exact absurd rfl h
    | cons p rest =>
      simp only [List.sum_cons]
      ring

theorem rawPercents_length (ws : List ℚ) : (rawPercents ws).length = ws.length :=
  List.length_map _ _

theorem walletNormalize_length (ws : List ℚ) :
    (walletNormalize ws).length = ws.length := by
  rw [walletNormalize, fixFirst_length, rawPercents_length]

theorem walletNormalize_sum (ws : List ℚ) (h : ws ≠ []) :
    (walletNormalize ws).sum = 100 := by
  apply fixFirst_sum
  rw [rawPercents]
  simpa using h

theorem chatFixFirst_sum (scaled : List ChatItem) (h : scaled ≠ []) :
    ((chatFixFirst scaled).map (·.percentage)).sum = 100 := by
  unfold chatFixFirst
  split
  · linarith [sub_eq_zero.mp (by assumption : 100 - (scaled.map (·.percentage)).sum = 0)]
  · cases scaled with
    | nil => exact absurd rfl h
    | cons x rest =>
      simp only [List.map_cons, List.sum_cons]
      ring

theorem chatFixFirst_length (scaled : List ChatItem) :
    (chatFixFirst scaled).length = scaled.length := by
  unfold chatFixFirst
  split
  · rfl
  · cases scaled <;> rfl

theorem chatScaled_length (items : List ChatItem) (total : ℚ) :
    (chatScaled items total).length = items.length :=
  List.length_map _ _

theorem list_sum_int (l : List ℚ) (h : ∀ x ∈ l, ∃ k : ℤ, x = (k : ℚ)) :
    ∃ K : ℤ, l.sum = (K : ℚ) := by
  induction l with
  | nil => exact ⟨0, by simp⟩
  | cons a rest ih =>
    obtain ⟨k, hk⟩ := h a (List.mem_cons_self a rest)
    obtain ⟨K, hK⟩ := ih fun x hx => h x (List.mem_cons_of_mem a hx)
    refine ⟨k + K, ?_⟩
    rw [List.sum_cons, hk, hK]
    push_cast
    ring

theorem chatScaled_intPercents (items : List ChatItem) (total : ℚ) :
    ∀ i ∈ chatScaled items total, ∃ k : ℤ, i.percentage = (k : ℚ) := by
  intro i hi
  rw [chatScaled] at hi
  obtain ⟨j, _, rfl⟩ := List.mem_map.mp hi
  exact ⟨jsRound (j.percentage / total * 100), rfl⟩

theorem chatFixFirst_intPercents (scaled : List ChatItem)
    (h : ∀ i ∈ scaled, ∃ k : ℤ, i.percentage = (k : ℚ)) :
    ∀ i ∈ chatFixFirst scaled, ∃ k : ℤ, i.percentage = (k : ℚ) := by
  unfold chatFixFirst
  split
  · exact h
  · cases scaled with
    | nil => exact h
    | cons x rest =>
      intro i hi
      rcases List.mem_cons.mp hi with hhead | htail
      · obtain ⟨k, hk⟩ := h x (List.mem_cons_self x rest)
        obtain ⟨K, hK⟩ :=
          list_sum_int ((x :: rest).map (·.percentage)) fun y hy => by
            obtain ⟨j, hj, rfl⟩ := List.mem_map.mp hy
            exact h j hj
        refine ⟨k + (100 - K), ?_⟩
        rw [hhead]
        show x.percentage + _ = _
        rw [hk, hK]
        push_cast
        ring
      · exact h i (List.mem_cons_of_mem x htail)

theorem chatRescale_of_guards (items : List ChatItem) (hne : items ≠ [])
    (hpos : 0 < (items.map (·.percentage)).sum)
    (htol : 1/2 < |(items.map (·.percentage)).sum - 100|) :
    chatRescale items = chatFixFirst (chatScaled items ((items.map (·.percentage)).sum)) := by
  rw [chatRescale, if_pos (List.length_pos.mpr hne), if_pos ⟨hpos, htol⟩]

theorem chatRescale_sum (items : List ChatItem) (hne : items ≠ [])
    (hpos : 0 < (items.map (·.percentage)).sum)
    (htol : 1/2 < |(items.map (·.percentage)).sum - 100|) :
    ((chatRescale items).map (·.percentage)).sum = 100 := by
  rw [chatRescale_of_guards items hne hpos htol]
  apply chatFixFirst_sum
  rw [chatScaled]
  simpa using hne

theorem chatRescale_length_of_guards (items : List ChatItem) (hne : items ≠ [])
    (hpos : 0 < (items.map (·.percentage)).sum)
    (htol : 1/2 < |(items.map (·.percentage)).sum - 100|) :
    (chatRescale items).length = items.length := by
  rw [chatRescale_of_guards items hne hpos htol, chatFixFirst_length, chatScaled_length]

theorem chatRescale_intPercents (items : List ChatItem) (hne : items ≠ [])
    (hpos : 0 < (items.map (·.percentage)).sum)
    (htol : 1/2 < |(items.map (·.percentage)).sum - 100|) :
    ∀ i ∈ chatRescale items, ∃ k : ℤ, i.percentage = (k : ℚ) := by
  rw [chatRescale_of_guards items hne hpos htol]
  exact chatFixFirst_intPercents _ (chatScaled_intPercents items _)

/-- Claim C1 (amended): for every non-empty list of non-negative weights the
wallet-lookup percentage computation produces integer percentages (its
output lives in `ℤ`), aligned index-for-index with the input (equal length,
computed positionally), summing to exactly 100.  The chat-edit rescaling
guarantees the same only when the weight total is positive and differs from
100 by more than the 0.5 tolerance; outside those guards it returns its
input unchanged (see the counterexample). -/
theorem claim_C1_amended :
    (∀ ws : List ℚ, ws ≠ [] → (∀ w ∈ ws, 0 ≤ w) →
      (walletNormalize ws).length = ws.length ∧ (walletNormalize ws).sum = 100) ∧
    (∀ items : List ChatItem, items ≠ [] → (∀ i ∈ items, 0 ≤ i.percentage) →
      0 < (items.map (·.percentage)).sum →
      1/2 < |(items.map (·.percentage)).sum - 100| →
      (chatRescale items).length = items.length ∧
      ((chatRescale items).map (·.percentage)).sum = 100 ∧
      ∀ i ∈ chatRescale items, ∃ k : ℤ, i.percentage = (k : ℚ)) := by
  constructor
  · intro ws hne _
    exact ⟨walletNormalize_length ws, walletNormalize_sum ws hne⟩
  · intro items hne _ hpos htol
    exact ⟨chatRescale_length_of_guards items hne hpos htol,
      chatRescale_sum items hne hpos htol,
      chatRescale_intPercents items hne hpos htol⟩

/-- Counterexample to claim C1 as stated: the chat-edit rescaling, fed the
non-empty non-negative weight list `[0]`, passes it through unchanged (the
rescale is guarded by `total > 0`), so its output sums to 0, not 100. -/
theorem claim_C1_counterexample :
    chatRescale [⟨"DOGE", none, 0⟩] = [⟨"DOGE", none, 0⟩] ∧
    (((chatRescale [⟨"DOGE", none, 0⟩]).map (·.percentage)).sum = (0 : ℚ)) ∧
    ((0 : ℚ) ≠ 100) := by
  refine ⟨?_, ?_, by norm_num⟩
  · unfold chatRescale
    norm_num
  · unfold chatRescale
    norm_num

/-- Witness for the amended C1 at concrete inputs: the spec scenario weights
[70, 20, 10] on the wallet side, and a single 120% item on the chat side. -/
theorem claim_C1_witness :
    ((walletNormalize [70, 20, 10]).length = 3 ∧ (walletNormalize [70, 20, 10]).sum = 100) ∧
    ((chatRescale [⟨"BTC", none, 120⟩]).map (·.percentage)).sum = 100 :=
  ⟨claim_C1_amended.1 [70, 20, 10] (by decide) (by decide),
   (claim_C1_amended.2 [⟨"BTC", none, 120⟩] (by decide) (by decide)
     (by norm_num) (by norm_num)).2.1⟩

theorem walletNormalize_allZero (ws : List ℚ) (hz : ∀ w ∈ ws, w = 0) :
    walletNormalize ws =
      fixFirst (List.replicate ws.length (jsRound (100 / (ws.length : ℚ)))) := by
  have hsum : ws.sum = 0 := List.sum_eq_zero hz
  rw [walletNormalize]
  congr 1
  unfold rawPercents
  simp only [hsum, lt_self_iff_false, if_false]
  exact List.map_const' ws _

/-- Claim C2 (amended): for every all-zero weight list of length n with
0 < n ≤ 5 — the only lengths the wallet-lookup call site can produce, since
the weights are the USD balances of the top-5 truncation — the wallet
normalization returns exactly the spec distribution: each item floor(100/n)
or floor(100/n)+1 with exactly 100 mod n items receiving the +1, assigned to
the first items in input order.  For n ≥ 6 the code differs: it assigns
round(100/n) to every item and pushes the whole correction onto the first
item (see the counterexample at n = 6). -/
theorem claim_C2_amended (ws : List ℚ) (hz : ∀ w ∈ ws, w = 0) (hne : ws ≠ [])
    (hlen : ws.length ≤ 5) : walletNormalize ws = zeroSpecList ws.length := by
  rw [walletNormalize_allZero ws hz]
  have h1 : 0 < ws.length := List.length_pos.mpr hne
  obtain ⟨n, hn⟩ : ∃ n, ws.length = n := ⟨_, rfl⟩
  rw [hn] at h1 hlen ⊢
  interval_cases n
  · rw [show jsRound (100 / ((1 : ℕ) : ℚ)) = 100 by norm_num [jsRound, Int.floor_eq_iff]]
    decide
  · rw [show jsRound (100 / ((2 : ℕ) : ℚ)) = 50 by norm_num [jsRound, Int.floor_eq_iff]]
    decide
  · rw [show jsRound (100 / ((3 : ℕ) : ℚ)) = 33 by norm_num [jsRound, Int.floor_eq_iff]]
    decide
  · rw [show jsRound (100 / ((4 : ℕ) : ℚ)) = 25 by norm_num [jsRound, Int.floor_eq_iff]]
    decide
  · rw [show jsRound (100 / ((5 : ℕ) : ℚ)) = 20 by norm_num [jsRound, Int.floor_eq_iff]]
    decide

/-- Counterexample to claim C2 as stated: on six zero weights the code gives
every item round(100/6) = 17 and then corrects the first item by
100 - 102 = -2, yielding [15, 17, 17, 17, 17, 17]; the claimed distribution
is [17, 17, 17, 17, 16, 16], and 15 is neither floor(100/6) = 16 nor 17. -/
theorem claim_C2_counterexample :
    walletNormalize (List.replicate 6 (0 : ℚ)) = [15, 17, 17, 17, 17, 17] ∧
    zeroSpecList 6 = [17, 17, 17, 17, 16, 16] ∧
    walletNormalize (List.replicate 6 (0 : ℚ)) ≠ zeroSpecList 6 := by
  have h := walletNormalize_allZero (List.replicate 6 (0 : ℚ)) (by simp)
  simp only [List.length_replicate] at h
  rw [show jsRound (100 / ((6 : ℕ) : ℚ)) = 17 by norm_num [jsRound, Int.floor_eq_iff]] at h
  have hv : walletNormalize (List.replicate 6 (0 : ℚ)) = [15, 17, 17, 17, 17, 17] := by
    rw [h]; decide
  refine ⟨hv, by decide, ?_⟩
  rw [hv]
  decide

/-- Witness for the amended C2: three zero weights give [34, 33, 33],
exactly floor(100/3) with the single remainder unit on the first item. -/
theorem claim_C2_witness :
    walletNormalize [(0 : ℚ), 0, 0] = zeroSpecList 3 :=
  claim_C2_amended [0, 0, 0] (by decide) (by decide) (by decide)

/-- Claim C3 (confirmed): the wallet normalization is idempotent — a
non-empty list of non-negative integer percentages already summing to
exactly 100, normalized as weights, reproduces the identical list. -/
theorem claim_C3 (ps : List ℤ) (_hne : ps ≠ []) (_hnn : ∀ p ∈ ps, 0 ≤ p)
    (hsum : ps.sum = 100) :
    walletNormalize (ps.map (fun (p : ℤ) => (p : ℚ))) = ps := by
  have htot : (ps.map (fun (p : ℤ) => (p : ℚ))).sum = 100 := by
    rw [sum_intCast, hsum]
    norm_num
  have hraw : rawPercents (ps.map (fun (p : ℤ) => (p : ℚ))) = ps := by
    unfold rawPercents
    simp only [htot]
    have hif : ∀ w : ℚ,
        (if (0 : ℚ) < 100 then jsRound (w / 100 * 100)
         else jsRound (100 / ((ps.map (fun (p : ℤ) => (p : ℚ))).length : ℚ))) = jsRound w := by
      intro w
      rw [if_pos (by norm_num : (0 : ℚ) < 100),
        div_mul_cancel₀ _ (by norm_num : (100 : ℚ) ≠ 0)]
    simp only [hif, List.map_map]
    have hpt : ∀ p ∈ ps, (jsRound ∘ fun (p : ℤ) => (p : ℚ)) p = p :=
      fun p _ => jsRound_intCast p
    rw [List.map_congr_left hpt]
    exact List.map_id' ps
  rw [walletNormalize, hraw]
  unfold fixFirst
  rw [if_pos hsum]

/-- Witness for C3: normalizing the already-normalized [70, 20, 10]
reproduces it. -/
theorem claim_C3_witness :
    walletNormalize (([70, 20, 10] : List ℤ).map (fun (p : ℤ) => (p : ℚ))) = [70, 20, 10] :=
  claim_C3 [70, 20, 10] (by decide) (by decide) (by decide)

/-! ## Theorems: chat-edit endpoint (claims C4, C5) -/

/-- Claim C4 (amended): a malformed AI reply (unparseable JSON or failing
schema validation) never yields a modified portfolio.  When the JSON parse
throws, the endpoint returns the original portfolio with a fixed non-empty
reply; when the reply parses to JSON `null`, property access on it throws
and the endpoint fails with HTTP 500, returning no portfolio at all;
otherwise, on schema failure, the endpoint returns the original portfolio
with either a non-empty fallback string or — when the malformed object
carries a truthy `reply` field — that field's value passed through verbatim
(which need not be a string). -/
theorem claim_C4_amended (parsed : Option JSVal) (portfolio : List ChatItem)
    (hmal : parsed = none ∨ ∃ v, parsed = some v ∧ decodeChatReply v = none) :
    (parsed = some JSVal.null ∧ chatHandle parsed portfolio = ChatResponse.serverError) ∨
    (∃ r, chatHandle parsed portfolio = ChatResponse.ok r portfolio ∧
      ((∃ s, r = JSVal.str s ∧ s ≠ "") ∨
       (∃ v, parsed = some v ∧ jsField v "reply" = some r ∧ jsTruthy r = true))) := by
  rcases hmal with rfl | ⟨v, rfl, hdec⟩
  · exact Or.inr ⟨.str chatParseFailReply, rfl, Or.inl ⟨_, rfl, by decide⟩⟩
  · cases v with
    | null => exact Or.inl ⟨rfl, rfl⟩
    | bool b => exact Or.inr ⟨.str chatValidateFailReply, rfl, Or.inl ⟨_, rfl, by decide⟩⟩
    | num q =>
      refine Or.inr ⟨.str chatValidateFailReply, ?_, Or.inl ⟨_, rfl, by decide⟩⟩
      simp only [chatHandle]
      rw [hdec]
      rfl
    | str s =>
      refine Or.inr ⟨.str chatValidateFailReply, ?_, Or.inl ⟨_, rfl, by decide⟩⟩
      simp only [chatHandle]
      rw [hdec]
      rfl
    | arr elems =>
      refine Or.inr ⟨.str chatValidateFailReply, ?_, Or.inl ⟨_, rfl, by decide⟩⟩
      simp only [chatHandle]
      rw [hdec]
      rfl
    | obj fields =>
      have hch : chatHandle (some (.obj fields)) portfolio =
          (match jsLookup fields "reply" with
           | some rv =>
             if jsTruthy rv then ChatResponse.ok rv portfolio
             else ChatResponse.ok (.str chatValidateFailReply) portfolio
           | none => ChatResponse.ok (.str chatValidateFailReply) portfolio) := by
        simp only [chatHandle]
        rw [hdec]
        rfl
      cases hlook : jsLookup fields "reply" with
      | none =>
        refine Or.inr ⟨.str chatValidateFailReply, ?_, Or.inl ⟨_, rfl, by decide⟩⟩
        rw [hch, hlook]
      | some rv =>
        cases ht : jsTruthy rv with
        | true =>
          refine Or.inr ⟨rv, ?_, Or.inr ⟨.obj fields, rfl, hlook, ht⟩⟩
          rw [hch, hlook]
          simp [ht]
        | false =>
          refine Or.inr ⟨.str chatValidateFailReply, ?_, Or.inl ⟨_, rfl, by decide⟩⟩
          rw [hch, hlook]
          simp [ht]

/-- Counterexample to claim C4 as stated: the AI content "null" parses as
JSON `null` and fails schema validation, yet the endpoint does not return
the original portfolio with a non-empty reply string — `parsed.reply`
throws on `null` and the outer catch answers HTTP 500. -/
theorem claim_C4_counterexample :
    decodeChatReply JSVal.null = none ∧
    chatHandle (some JSVal.null) [⟨"Bitcoin", none, 60⟩, ⟨"Ether", none, 40⟩] =
      ChatResponse.serverError ∧
    ¬ ∃ s : String, s ≠ "" ∧
        chatHandle (some JSVal.null) [⟨"Bitcoin", none, 60⟩, ⟨"Ether", none, 40⟩] =
          ChatResponse.ok (JSVal.str s) [⟨"Bitcoin", none, 60⟩, ⟨"Ether", none, 40⟩] := by
  refine ⟨rfl, rfl, ?_⟩
  rintro ⟨s, _, h⟩
  rw [show chatHandle (some JSVal.null) [⟨"Bitcoin", none, 60⟩, ⟨"Ether", none, 40⟩] =
      ChatResponse.serverError from rfl] at h
  exact ChatResponse.noConfusion h

/-- Witness for the amended C4 at a concrete malformed input: the
parse-failure path returns the original one-item portfolio unchanged. -/
theorem claim_C4_witness :
    ((none : Option JSVal) = some JSVal.null ∧
      chatHandle none [⟨"Pepe", none, 50⟩] = ChatResponse.serverError) ∨
    (∃ r, chatHandle none [⟨"Pepe", none, 50⟩] = ChatResponse.ok r [⟨"Pepe", none, 50⟩] ∧
      ((∃ s, r = JSVal.str s ∧ s ≠ "") ∨
       (∃ v, (none : Option JSVal) = some v ∧ jsField v "reply" = some r ∧
         jsTruthy r = true))) :=
  claim_C4_amended none [⟨"Pepe", none, 50⟩] (Or.inl rfl)

/-- Claim C5 (amended): for every schema-validated AI reply with a
non-empty returned portfolio whose percentage total is positive, if the
total differs from 100 by more than the 0.5 tolerance the endpoint rescales
(scale by 100/total, round, remainder correction on the first item — the
definition of `chatRescale`) and accepts a non-empty portfolio whose
percentages sum to exactly 100.  The positivity guard is what the claim as
stated lacks: a validated all-zero portfolio is accepted unchanged. -/
theorem claim_C5_amended (v : JSVal) (reply : String) (items portfolio : List ChatItem)
    (hdec : decodeChatReply v = some (reply, items)) (hne : items ≠ [])
    (hpos : 0 < (items.map (·.percentage)).sum)
    (htol : 1/2 < |(items.map (·.percentage)).sum - 100|) :
    chatHandle (some v) portfolio = ChatResponse.ok (JSVal.str reply) (chatRescale items) ∧
    ((chatRescale items).map (·.percentage)).sum = 100 ∧
    chatRescale items ≠ [] := by
  refine ⟨?_, chatRescale_sum items hne hpos htol, ?_⟩
  · simp only [chatHandle]
    rw [hdec]
  · intro h
    have hl := chatRescale_length_of_guards items hne hpos htol
    rw [h] at hl
    exact hne (List.eq_nil_of_length_eq_zero hl.symm)

/-- Counterexample to claim C5 as stated: the schema-valid reply with the
single portfolio item USDC at 0% has total 0, which is not within 0.5 of
100; the code's rescale is additionally guarded by `total > 0`, so the
portfolio is accepted unchanged and its percentages sum to 0, not 100. -/
theorem claim_C5_counterexample :
    decodeChatReply chatZeroReplyVal = some ("ok", [⟨"USDC", none, 0⟩]) ∧
    ¬ (|(([(⟨"USDC", none, 0⟩ : ChatItem)].map (·.percentage)).sum - 100)| ≤ 1/2) ∧
    chatHandle (some chatZeroReplyVal) [] =
      ChatResponse.ok (JSVal.str "ok") [⟨"USDC", none, 0⟩] ∧
    ((([⟨"USDC", none, 0⟩] : List ChatItem).map (·.percentage)).sum ≠ 100) := by
  have hr : chatRescale [(⟨"USDC", none, 0⟩ : ChatItem)] = [⟨"USDC", none, 0⟩] := by
    unfold chatRescale
    norm_num
  refine ⟨rfl, ?_, ?_, ?_⟩
  · norm_num
  · have hd : decodeChatReply chatZeroReplyVal = some ("ok", [⟨"USDC", none, 0⟩]) := rfl
    simp only [chatHandle]
    rw [hd]
    show ChatResponse.ok (JSVal.str "ok") (chatRescale [⟨"USDC", none, 0⟩]) =
      ChatResponse.ok (JSVal.str "ok") [⟨"USDC", none, 0⟩]
    rw [hr]
  · norm_num

/-- Witness for the amended C5: a validated reply totalling 150% is
rescaled to a portfolio summing to exactly 100. -/
theorem claim_C5_witness :
    chatHandle (some chatGoodReplyVal) [] =
      ChatResponse.ok (JSVal.str "rebalanced")
        (chatRescale [⟨"ARB", none, 60⟩, ⟨"OP", none, 90⟩]) ∧
    ((chatRescale [⟨"ARB", none, 60⟩, ⟨"OP", none, 90⟩]).map (·.percentage)).sum = 100 ∧
    chatRescale [⟨"ARB", none, 60⟩, ⟨"OP", none, 90⟩] ≠ [] :=
  claim_C5_amended chatGoodReplyVal "rebalanced" [⟨"ARB", none, 60⟩, ⟨"OP", none, 90⟩] []
    rfl (by decide) (by norm_num) (by norm_num)

/-! ## Theorems: wallet-lookup endpoint (claims C6, C7) -/

/-- Claim C6 (confirmed): a `POST /api/wallet/lookup` whose address does not
match `^0x[a-fA-F0-9]{40}$` fails validation — HTTP 400 and no wallet lookup
or history record — and every address matching the pattern passes
validation (whatever the upstream then answers, the result is never the
validation error). -/
theorem claim_C6 (address : String) (env : WalletEnv) :
    (matchesEthAddress address = false →
      walletLookup address env = (WalletLookupResult.validationError, [])) ∧
    (matchesEthAddress address = true →
      (walletLookup address env).1 ≠ WalletLookupResult.validationError) := by
  constructor
  · intro h
    unfold walletLookup
    rw [h]
    rfl
  · intro h
    unfold walletLookup
    rw [h]
    cases hf : env.fetchOk with
    | false => simp
    | true =>
      cases herr : env.data.error with
      | none => simp [hf, herr]
      | some m => simp [hf, herr]

/-- Witness for C6: "vitalik.eth" is rejected with no record; a well-formed
hex address passes validation. -/
theorem claim_C6_witness :
    (matchesEthAddress "vitalik.eth" = false ∧
      walletLookup "vitalik.eth" emptyWalletEnv = (WalletLookupResult.validationError, [])) ∧
    (matchesEthAddress "0xd8dA6BF26964aF9D7eEd9e03E53415D37aA96045" = true ∧
      (walletLookup "0xd8dA6BF26964aF9D7eEd9e03E53415D37aA96045" emptyWalletEnv).1 ≠
        WalletLookupResult.validationError) :=
  ⟨⟨by decide, (claim_C6 "vitalik.eth" emptyWalletEnv).1 (by decide)⟩,
   ⟨by decide, (claim_C6 "0xd8dA6BF26964aF9D7eEd9e03E53415D37aA96045" emptyWalletEnv).2
     (by decide)⟩⟩

theorem attachPercentages_length (ts : List RawToken) :
    (attachPercentages ts).length = ts.length := by
  rw [attachPercentages, List.length_zipWith, walletNormalize_length, List.length_map,
    min_self]

theorem mem_attachPercentages (ts : List RawToken) (x : RawToken) (hx : x ∈ ts) :
    ∃ t ∈ attachPercentages ts, t.name = x.name ∧ t.symbol = x.symbol := by
  obtain ⟨i, hi, hget⟩ := List.getElem_of_mem hx
  have hi2 : i < (attachPercentages ts).length := by
    rwa [attachPercentages_length]
  refine ⟨(attachPercentages ts)[i], List.getElem_mem hi2, ?_⟩
  simp only [attachPercentages] at hi2 ⊢
  rw [List.getElem_zipWith]
  rw [← hget]
  exact ⟨rfl, rfl⟩

theorem attachPercentages_pairwise (ts : List RawToken)
    (hs : List.Pairwise usdGE ts) :
    List.Pairwise (fun a b : OutToken => b.balanceUsd ≤ a.balanceUsd)
      (attachPercentages ts) := by
  rw [List.pairwise_iff_getElem] at hs ⊢
  intro i j hi hj hij
  have hi3 : i < ts.length := by rwa [attachPercentages_length] at hi
  have hj3 : j < ts.length := by rwa [attachPercentages_length] at hj
  have hij2 := hs i j hi3 hj3 hij
  simp only [attachPercentages] at hi hj ⊢
  rw [List.getElem_zipWith, List.getElem_zipWith]
  exact hij2

theorem countP_head_lt_five_mem_take (x : RawToken) (rest : List RawToken)
    (h : rest.countP (fun t => decide (x.balanceUsd < t.balanceUsd)) < 5) :
    x ∈ (List.insertionSort usdGE (x :: rest)).take 5 := by
  have hins : List.insertionSort usdGE (x :: rest) =
      List.orderedInsert usdGE x (List.insertionSort usdGE rest) := rfl
  rw [hins, List.orderedInsert_eq_take_drop]
  have hlt :
      ((List.insertionSort usdGE rest).takeWhile fun b => decide ¬ usdGE x b).length < 5 := by
    have h1 : ((List.insertionSort usdGE rest).takeWhile
        fun b => decide ¬ usdGE x b).length =
        List.countP (fun b => decide ¬ usdGE x b)
          ((List.insertionSort usdGE rest).takeWhile fun b => decide ¬ usdGE x b) := by
      rw [List.countP_eq_length.mpr]
      intro a ha
      simpa using List.mem_takeWhile_imp ha
    have h2 : List.countP (fun b => decide ¬ usdGE x b)
        ((List.insertionSort usdGE rest).takeWhile fun b => decide ¬ usdGE x b) ≤
        List.countP (fun b => decide ¬ usdGE x b) (List.insertionSort usdGE rest) :=
      List.Sublist.countP_le _ (List.takeWhile_sublist _)
    have h3 : List.countP (fun b => decide ¬ usdGE x b) (List.insertionSort usdGE rest) =
        List.countP (fun b => decide ¬ usdGE x b) rest :=
      (List.perm_insertionSort usdGE rest).countP_eq _
    have h4 : List.countP (fun b => decide ¬ usdGE x b) rest =
        rest.countP (fun t => decide (x.balanceUsd < t.balanceUsd)) := by
      apply List.countP_congr
      intro a _
      simp [usdGE, not_le]
    omega
  rw [List.take_append_eq_append_take,
    List.take_of_length_le (le_of_lt hlt)]
  have h5 : 0 < 5 -
      ((List.insertionSort usdGE rest).takeWhile fun b => decide ¬ usdGE x b).length :=
    Nat.sub_pos_of_lt hlt
  obtain ⟨k, hk⟩ := Nat.exists_eq_succ_of_ne_zero (Nat.pos_iff_ne_zero.mp h5)
  rw [hk, List.take_succ_cons]
  exact List.mem_append_right _ (List.mem_cons_self _ _)

/-- Claim C7 (confirmed): every wallet lookup returns at most 5 tokens,
ordered descending by USD balance; and whenever the response's ETH field is
present with positive balance and the Ethereum entry ranks in the top 5
holdings by USD value (fewer than five holdings have a strictly greater USD
balance — with ties the ETH entry wins, being first in `rawTokens` under a
stable sort), an Ethereum entry is included in the result. -/
theorem claim_C7 (d : EthplorerData) :
    (walletTokensOut d).length ≤ 5 ∧
    List.Pairwise (fun a b : OutToken => b.balanceUsd ≤ a.balanceUsd) (walletTokensOut d) ∧
    (∀ e, d.ETH = some e → 0 < e.balance.getD 0 →
      (rawTokensOf d).countP
        (fun t => decide ((ethRawToken e).balanceUsd < t.balanceUsd)) < 5 →
      ∃ t ∈ walletTokensOut d, t.name = "Ethereum" ∧ t.symbol = "ETH") := by
  refine ⟨?_, ?_, ?_⟩
  · rw [walletTokensOut, attachPercentages_length, top5Raw, List.length_take]
    exact min_le_left _ _
  · rw [walletTokensOut]
    apply attachPercentages_pairwise
    rw [top5Raw]
    exact List.Pairwise.sublist (List.take_sublist 5 _)
      (List.sorted_insertionSort usdGE (rawTokensOf d))
  · intro e hE _ hrank
    have hraw : rawTokensOf d = ethRawToken e ::
        (match d.tokens with
          | some ts => ts.filterMap erc20RawToken
          | none => []) := by
      rw [rawTokensOf, hE]
      rfl
    rw [hraw] at hrank
    rw [List.countP_cons_of_neg] at hrank
    · have hmem : ethRawToken e ∈ top5Raw d := by
        rw [top5Raw, hraw]
        exact countP_head_lt_five_mem_take _ _ hrank
      obtain ⟨t, ht, hn, hsym⟩ := mem_attachPercentages _ _ hmem
      exact ⟨t, ht, hn, hsym⟩
    · simp

/-- Witness for C7 at a wallet holding only ETH: the result contains the
Ethereum entry. -/
theorem claim_C7_witness :
    ∃ t ∈ walletTokensOut ethOnlyData, t.name = "Ethereum" ∧ t.symbol = "ETH" := by
  refine (claim_C7 ethOnlyData).2.2 ⟨some 2, some ⟨some 1000⟩⟩ rfl (by decide) ?_
  have hx : rawTokensOf ethOnlyData = [ethRawToken ⟨some 2, some ⟨some 1000⟩⟩] := rfl
  rw [hx]
  have h0 : List.countP
      (fun t => decide ((ethRawToken ⟨some 2, some ⟨some 1000⟩⟩).balanceUsd < t.balanceUsd))
      [ethRawToken ⟨some 2, some ⟨some 1000⟩⟩] = 0 := by
    apply List.countP_eq_zero.mpr
    intro a ha
    rw [List.mem_singleton.mp ha]
    simp
  rw [h0]
  norm_num

/-! ## Theorems: portfolio deployment (claims C8, C9, C10) -/

/-- Claim C8 (confirmed): whenever at least one check comes back
unavailable, the run aborts at the availability gate — before the network,
balance or swap machinery is touched — with zero swap transactions
submitted, and the status reports exactly the unavailable symbols. -/
theorem claim_C8 (items : List PortfolioItem) (checks : List TokenCheck)
    (chainOk : Bool) (initialBalance : ℕ) (env : ℕ → StepEnv)
    (h : ∃ c ∈ checks, c.available = false) :
    deployPortfolio items checks chainOk initialBalance env =
      DeployResult.unavailable ((checks.filter fun c => !c.available).map (·.symbol)) ∧
    submittedSwapCount (deployPortfolio items checks chainOk initialBalance env) = 0 := by
  obtain ⟨c, hc, hcav⟩ := h
  have hmem : c ∈ checks.filter fun c => !c.available :=
    List.mem_filter.mpr ⟨hc, by rw [hcav]; rfl⟩
  have hpos : 0 < (checks.filter fun c => !c.available).length :=
    List.length_pos.mpr (List.ne_nil_of_mem hmem)
  have hd : deployPortfolio items checks chainOk initialBalance env =
      DeployResult.unavailable ((checks.filter fun c => !c.available).map (·.symbol)) := by
    unfold deployPortfolio
    rw [if_pos hpos]
  exact ⟨hd, by rw [hd]; rfl⟩

/-- Witness for C8: with FOO unavailable the run reports [FOO] and submits
no swap. -/
theorem claim_C8_witness :
    deployPortfolio depItems depChecksBad true 5 depEnvHalt =
      DeployResult.unavailable ((depChecksBad.filter fun c => !c.available).map (·.symbol)) ∧
    submittedSwapCount (deployPortfolio depItems depChecksBad true 5 depEnvHalt) = 0 :=
  claim_C8 depItems depChecksBad true 5 depEnvHalt
    ⟨⟨"FOO", false, none, none, none⟩, by decide, rfl⟩

theorem runLoop_halt_last (items : List PortfolioItem) (total : ℤ) (env : ℕ → StepEnv) :
    ∀ (tokens : List TokenCheck) (idx : ℕ) (pre post : List StepOutcome) (c : ℕ),
      runLoop items total env tokens idx =
        pre ++ StepOutcome.haltedInsufficientGas c :: post →
      post = [] := by
  intro tokens
  induction tokens with
  | nil =>
    intro idx pre post c h
    rw [runLoop] at h
    exact absurd h.symm (List.append_ne_nil_of_right_ne_nil pre (List.cons_ne_nil _ _))
  | cons t rest ih =>
    intro idx pre post c h
    rw [runLoop] at h
    have step : ∀ (o : StepOutcome), (∀ k, o ≠ StepOutcome.haltedInsufficientGas k) →
        o :: runLoop items total env rest (idx + 1) =
          pre ++ StepOutcome.haltedInsufficientGas c :: post →
        post = [] := by
      intro o ho he
      cases pre with
      | nil =>
        rw [List.nil_append] at he
        exact absurd (List.head_eq_of_cons_eq he) (ho c)
      | cons a pre2 =>
        rw [List.cons_append] at he
        exact ih (idx + 1) pre2 post c (List.tail_eq_of_cons_eq he)
    split at h
    · exact step _ (fun k => by intro hk; cases hk) h
    · split at h
      · exact step _ (fun k => by intro hk; cases hk) h
      · split at h
        · exact step _ (fun k => by intro hk; cases hk) h
        · split at h
          · -- the halt branch: the loop output is the singleton
            cases pre with
            | nil =>
              rw [List.nil_append] at h
              exact (List.tail_eq_of_cons_eq h).symm
            | cons a pre2 =>
              rw [List.cons_append] at h
              exact absurd (List.tail_eq_of_cons_eq h).symm
                (List.append_ne_nil_of_right_ne_nil pre2 (List.cons_ne_nil _ _))
          · split at h
            · exact step _ (fun k => by intro hk; cases hk) h
            · split at h
              · exact step _ (fun k => by intro hk; cases hk) h
              · exact step _ (fun k => by intro hk; cases hk) h

/-- Claim C9 (confirmed): a 20% safety margin is applied to each estimated
gas cost — `marginGasCost g p = g*p*120/100`, which equals `6*(g*p)/5` and
never falls below the raw estimate `g*p` — and whenever the margin-adjusted
gas cost is at least the current balance, the run halts entirely: a
halt outcome is always the last entry of the run's outcome list, so no
further assets are attempted after it. -/
theorem claim_C9 :
    (∀ gasEstimate gasPrice : ℕ,
        gasEstimate * gasPrice ≤ marginGasCost gasEstimate gasPrice ∧
        marginGasCost gasEstimate gasPrice = 6 * (gasEstimate * gasPrice) / 5) ∧
    (∀ (items : List PortfolioItem) (checks : List TokenCheck) (chainOk : Bool)
        (initialBalance : ℕ) (env : ℕ → StepEnv) (pre post : List StepOutcome) (c : ℕ),
      deployPortfolio items checks chainOk initialBalance env =
        DeployResult.completed (pre ++ StepOutcome.haltedInsufficientGas c :: post) →
      post = []) := by
  constructor
  · intro g p
    constructor
    · rw [marginGasCost]
      calc g * p = g * p * 100 / 100 := by omega
        _ ≤ g * p * 120 / 100 := by
            apply Nat.div_le_div_right
            apply Nat.mul_le_mul_left
            omega
    · rw [marginGasCost]
      have h1 : g * p * 120 = 20 * (6 * (g * p)) := by ring
      have h2 : (100 : ℕ) = 20 * 5 := by norm_num
      rw [h1, h2, Nat.mul_div_mul_left _ _ (by norm_num : (0 : ℕ) < 20)]
  · intro items checks chainOk initialBalance env pre post c h
    unfold deployPortfolio at h
    split at h
    · exact DeployResult.noConfusion h
    · split at h
      · exact DeployResult.noConfusion h
      · split at h
        · exact DeployResult.noConfusion h
        · exact runLoop_halt_last items _ env _ 0 pre post c
            (DeployResult.completed.inj h)

/-- Witness for C9: a concrete run whose single iteration hits the gas
cutoff produces exactly the halt outcome and nothing after it. -/
theorem claim_C9_witness :
    marginGasCost 100 1 = 6 * (100 * 1) / 5 ∧
    deployPortfolio depItems depChecksOk true 5 depEnvHalt =
      DeployResult.completed ([] ++ StepOutcome.haltedInsufficientGas 120 :: []) ∧
    ([] : List StepOutcome) = [] :=
  ⟨(claim_C9.1 100 1).2, by decide,
   claim_C9.2 depItems depChecksOk true 5 depEnvHalt [] [] 120 (by decide)⟩

/-- Claim C10 (confirmed): both spend-amount computations are total — their
divisor is `total` when it is positive and 100 otherwise, so it is never
zero, and in particular a zero percentage total over the available assets
makes both the preliminary amount and the final amount divide by 100. -/
theorem claim_C10 :
    (∀ total : ℤ, divisorOf total ≠ 0) ∧
    divisorOf 0 = 100 ∧
    (∀ balance pct : ℤ, preliminaryAmount balance pct 0 = Int.tdiv (balance * pct) 100) ∧
    (∀ usable pct : ℤ, swapAmountIn usable pct 0 = Int.tdiv (usable * pct) 100) := by
  refine ⟨?_, rfl, fun balance pct => rfl, fun usable pct => rfl⟩
  intro total
  rw [divisorOf]
  split
  · omega
  · norm_num

/-- Witness for C10 at concrete divisors and amounts. -/
theorem claim_C10_witness :
    divisorOf (-7) ≠ 0 ∧ divisorOf 0 = 100 ∧
    preliminaryAmount 1000 50 0 = Int.tdiv (1000 * 50) 100 :=
  ⟨claim_C10.1 (-7), claim_C10.2.1, claim_C10.2.2.1 1000 50⟩
